import Mathlib

/-!
Verification of the backgammon-variant game engine.

Shallow embedding of the TypeScript rule engine (gameService, shared-home
variant), the dice-duel state machine (diceGameService), and the socket
room handlers (gameHandler).  Checker counts are natural numbers, board
indices are integers (the handlers compute possibly-negative indices
before range checks, exactly as the source does).
-/

/-- The two players; the TS code uses the literal type 1 | 2. -/
inductive Player where
  | p1 : Player
  | p2 : Player
deriving DecidableEq, Repr

/-- The opponent of a player (TS: player === 1 ? 2 : 1). -/
def Player.other : Player → Player
  | .p1 => .p2
  | .p2 => .p1

/-- Origin of a move: a point index or the bar (TS: number | 'bar'). -/
inductive Origin where
  | bar : Origin
  | pt : Int → Origin
deriving DecidableEq, Repr

/-- Destination of a move: a point index or off the board (TS: number | 'off'). -/
inductive Dest where
  | off : Dest
  | pt : Int → Dest
deriving DecidableEq, Repr

/--
The board (TS interface BackgammonBoard).  TS stores points as
number[][] with points[i] = [player1 count, player2 count]; here that
array of pairs is split into the two per-player count lists points1 and
points2.  bar / borne_off records are flattened into bar1, bar2, off1,
off2.
-/
structure Board where
  points1 : List Nat
  points2 : List Nat
  bar1 : Nat
  bar2 : Nat
  off1 : Nat
  off2 : Nat
  dice : Option (Int × Int)
  current_player : Int
  game_id : String
deriving DecidableEq, Repr

/-- Array read board.points[i][player-1]; out-of-range reads never occur on
the guarded paths of the source, the default 0 is inert. -/
def getP (l : List Nat) (i : Int) : Nat :=
  if i < 0 then 0 else l.getD i.toNat 0

/-- Array write board.points[i][player-1] = x. -/
def setP (l : List Nat) (i : Int) (x : Nat) : List Nat :=
  if i < 0 then l else l.set i.toNat x

/-- The acting player's point-count list. -/
def ptsOf (b : Board) : Player → List Nat
  | .p1 => b.points1
  | .p2 => b.points2

/-- board.bar[player === 1 ? 'player1' : 'player2']. -/
def barOf (b : Board) : Player → Nat
  | .p1 => b.bar1
  | .p2 => b.bar2

/-- board.borne_off[player === 1 ? 'player1' : 'player2']. -/
def offOf (b : Board) : Player → Nat
  | .p1 => b.off1
  | .p2 => b.off2

/-- Replace a player's point-count list. -/
def setPts (b : Board) (p : Player) (l : List Nat) : Board :=
  match p with
  | .p1 => { b with points1 := l }
  | .p2 => { b with points2 := l }

/-- Replace a player's bar count. -/
def setBar (b : Board) (p : Player) (n : Nat) : Board :=
  match p with
  | .p1 => { b with bar1 := n }
  | .p2 => { b with bar2 := n }

/-- Replace a player's borne-off count. -/
def setOff (b : Board) (p : Player) (n : Nat) : Board :=
  match p with
  | .p1 => { b with off1 := n }
  | .p2 => { b with off2 := n }

/-- A board is well formed when both point lists have the 24 entries the
TS array literally has. -/
def Board.WF (b : Board) : Prop :=
  b.points1.length = 24 ∧ b.points2.length = 24

instance (b : Board) : Decidable b.WF := by
  unfold Board.WF; infer_instance

/--
initializeBoard of the shared-home rule file: player 1 checkers on
indices 23 (2), 12 (5), 8 (3), 5 (5); player 2 checkers on indices
6 (5), 17 (2), 3 (3), 18 (5); empty bar, nothing borne off, dice null,
current_player 1, empty game id.
-/
def initializeBoard : Board :=
  { points1 := [0,0,0,0,0,5, 0,0,3,0,0,0, 5,0,0,0,0,0, 0,0,0,0,0,2]
    points2 := [0,0,0,3,0,0, 5,0,0,0,0,0, 0,0,0,0,0,2, 5,0,0,0,0,0]
    bar1 := 0, bar2 := 0, off1 := 0, off2 := 0
    dice := none, current_player := 1, game_id := "" }

/-- isInHomeBoard: both players' home board is indices 0-5. -/
def isInHomeBoard (pointIndex : Int) (_p : Player) : Bool :=
  decide (0 ≤ pointIndex) && decide (pointIndex ≤ 5)

/-- allInHomeBoard: no checker of the player outside indices 0-5 and an
empty bar for that player. -/
def allInHomeBoard (b : Board) (p : Player) : Bool :=
  ((List.range 24).all fun i =>
    if 5 < (i : Int) then getP (ptsOf b p) i == 0 else true)
  && (barOf b p == 0)

/--
isValidMove of the shared-home rule file.  Bar entries land on indices
18-23 (entry index (24 - die) - 1 when a die value is supplied); bearing
off needs all checkers home, a home-board source with a checker, and the
exact-or-overshoot die rule; ordinary moves go strictly toward lower
indices onto points with at most one opposing checker.
-/
def isValidMove (b : Board) (src : Origin) (dst : Dest) (p : Player)
    (diceValue : Option Int) : Bool :=
  match src, dst with
  | .bar, .off => false
  | .bar, .pt t =>
    if t < 18 ∨ 23 < t then false
    else if 1 < getP (ptsOf b p.other) t then false
    else if barOf b p = 0 then false
    else
      match diceValue with
      | some d => if t ≠ 24 - d - 1 then false else true
      | none => true
  | .pt f, .off =>
    if !(allInHomeBoard b p) then false
    else if !(isInHomeBoard f p) then false
    else if getP (ptsOf b p) f = 0 then false
    else
      match diceValue with
      | some d =>
        if f + 1 = d then true
        else if f + 1 < d then
          (List.range 6).all fun i =>
            if f < (i : Int) then getP (ptsOf b p) i == 0 else true
        else false
      | none => true
  | .pt f, .pt t =>
    if f < 0 ∨ 23 < f ∨ t < 0 ∨ 23 < t then false
    else if getP (ptsOf b p) f = 0 then false
    else if f ≤ t then false
    else if 1 < getP (ptsOf b p.other) t then false
    else
      match diceValue with
      | some d => if f - t ≠ d then false else true
      | none => true

/--
makeMove of the shared-home rule file: returns a new board.  Bar entry
decrements the bar, hits a lone opposing checker (sending it to the
opponent's bar) and places the checker; bearing off decrements the source
point and increments borne_off; an ordinary move decrements the source,
hits a lone opposing checker, and increments the destination.  The
diceValue argument is unused, as in the source.
-/
def makeMove (b : Board) (src : Origin) (dst : Dest) (p : Player)
    (_diceValue : Int) : Board :=
  match src, dst with
  | .bar, .off => b
  | .bar, .pt t =>
    let b1 := setBar b p (barOf b p - 1)
    let b2 :=
      if getP (ptsOf b1 p.other) t = 1 then
        setBar (setPts b1 p.other (setP (ptsOf b1 p.other) t 0)) p.other
          (barOf b1 p.other + 1)
      else b1
    setPts b2 p (setP (ptsOf b2 p) t (getP (ptsOf b2 p) t + 1))
  | .pt f, .off =>
    let b1 := setPts b p (setP (ptsOf b p) f (getP (ptsOf b p) f - 1))
    setOff b1 p (offOf b1 p + 1)
  | .pt f, .pt t =>
    let b1 := setPts b p (setP (ptsOf b p) f (getP (ptsOf b p) f - 1))
    let b2 :=
      if getP (ptsOf b1 p.other) t = 1 then
        setBar (setPts b1 p.other (setP (ptsOf b1 p.other) t 0)) p.other
          (barOf b1 p.other + 1)
      else b1
    setPts b2 p (setP (ptsOf b2 p) t (getP (ptsOf b2 p) t + 1))

/-- checkWinCondition: the player whose borne-off count is 15, if any. -/
def checkWinCondition (b : Board) : Option Player :=
  if b.off1 = 15 then some .p1
  else if b.off2 = 15 then some .p2
  else none

/-- One die-block of the canPlayerMove point scan: with an unused die,
try the ordinary move to i - die, then a bear-off from i. -/
def tryDieMove (b : Board) (p : Player) (i : Int) (die : Int)
    (usedFlag : Bool) : Bool :=
  if usedFlag then false
  else
    let t := i - die
    (if 0 ≤ t ∧ t < 24 then isValidMove b (.pt i) (.pt t) p (some die)
     else false) ||
    (if isInHomeBoard i p && allInHomeBoard b p then
       isValidMove b (.pt i) .off p (some die)
     else false)

/--
canPlayerMove of the shared-home rule file: with checkers on the bar only
entries on indices 18-23 are tried (with each unused die); otherwise every
occupied point is scanned for an ordinary move or a bear-off with each
unused die.
-/
def canPlayerMove (b : Board) (p : Player) (dice : Int × Int)
    (usedDice : List Bool) : Bool :=
  if 0 < barOf b p then
    (List.range 6).any fun k =>
      let i : Int := 18 + (k : Int)
      (!(usedDice.getD 0 false) && isValidMove b .bar (.pt i) p (some dice.1)) ||
      (!(usedDice.getD 1 false) && isValidMove b .bar (.pt i) p (some dice.2))
  else
    (List.range 24).any fun n =>
      let i : Int := (n : Int)
      if 0 < getP (ptsOf b p) i then
        tryDieMove b p i dice.1 (usedDice.getD 0 false) ||
        tryDieMove b p i dice.2 (usedDice.getD 1 false)
      else false

/--
The dice-duel state (TS interface DiceGameState): per-round rolls, running
scores, round counter, tri-state round winner (null / 0 tie / 1 / 2) and
the match winner.
-/
structure DiceGameState where
  game_id : String
  player1_score : Nat
  player2_score : Nat
  current_round : Nat
  player1_roll : Option Int
  player2_roll : Option Int
  current_player : Player
  round_winner : Option Nat
  game_winner : Option Player
deriving DecidableEq, Repr

/-- initializeDiceGame: zero scores, round 1, no rolls, player 1 to act,
no round or game winner. -/
def initializeDiceGame (gameId : String) : DiceGameState :=
  { game_id := gameId
    player1_score := 0, player2_score := 0
    current_round := 1
    player1_roll := none, player2_roll := none
    current_player := .p1
    round_winner := none, game_winner := none }

/--
processDiceRoll: record the roll for the acting player; if the other
player has not rolled yet only current_player flips; once both rolls are
in, the higher roll scores a point (tie records winner 0), the game ends
at 3 points, otherwise the round advances, both rolls and the round
winner reset, and the starting player alternates by round parity.
-/
def processDiceRoll (gameState : DiceGameState) (player : Player)
    (roll : Int) : DiceGameState :=
  let s1 :=
    match player with
    | .p1 => { gameState with player1_roll := some roll }
    | .p2 => { gameState with player2_roll := some roll }
  match s1.player1_roll, s1.player2_roll with
  | some r1, some r2 =>
    let s2 :=
      if r1 > r2 then
        { s1 with round_winner := some 1, player1_score := s1.player1_score + 1 }
      else if r2 > r1 then
        { s1 with round_winner := some 2, player2_score := s1.player2_score + 1 }
      else
        { s1 with round_winner := some 0 }
    if 3 ≤ s2.player1_score then { s2 with game_winner := some .p1 }
    else if 3 ≤ s2.player2_score then { s2 with game_winner := some .p2 }
    else
      let s3 := { s2 with
        current_round := s2.current_round + 1
        player1_roll := none, player2_roll := none, round_winner := none }
      { s3 with current_player := if s3.current_round % 2 = 0 then .p2 else .p1 }
  | _, _ =>
    { s1 with current_player := player.other }

/-- The in-memory backgammon room (TS interface BackgammonGameRoom),
without the two participant id strings, which the model abstracts into
the Player acting in each handler call. -/
structure Room where
  board : Board
  currentPlayer : Player
  dice : Option (Int × Int)
  diceUsed : List Bool
deriving DecidableEq, Repr

/-- What a handler emits: an error to the acting connection only, a
state broadcast to the room, or a game-over broadcast. -/
inductive Emit where
  | errSender : String → Emit
  | broadcastState : Emit
  | gameOver : Player → Emit
deriving DecidableEq, Repr

/-- The room created on first join: fresh board, player 1 to act, no
dice, empty used-dice array. -/
def initialRoom : Room :=
  { board := initializeBoard, currentPlayer := .p1, dice := none, diceUsed := [] }

/--
Die matching of the make-move handler: a bar entry matches die 0 then
die 1 by the entry-index formula; a bear-off matches die 0 then die 1 by
exact point number, then the larger unused die under the overshoot rule
(no checker on a higher home index); an ordinary move matches die 0 then
die 1 by exact distance.  Returns the die index and its value, or none.
-/
def dieMatch (b : Board) (p : Player) (dice : Int × Int)
    (usedDice : List Bool) (src : Origin) (dst : Dest) : Option (Nat × Int) :=
  match src, dst with
  | .bar, .pt t =>
    if t = 24 - dice.1 - 1 ∧ usedDice.getD 0 false = false then some (0, dice.1)
    else if t = 24 - dice.2 - 1 ∧ usedDice.getD 1 false = false then some (1, dice.2)
    else none
  | .pt f, .off =>
    if f + 1 = dice.1 ∧ usedDice.getD 0 false = false then some (0, dice.1)
    else if f + 1 = dice.2 ∧ usedDice.getD 1 false = false then some (1, dice.2)
    else
      let hi : Nat := if dice.1 > dice.2 then 0 else 1
      let hv : Int := if dice.1 > dice.2 then dice.1 else dice.2
      if usedDice.getD hi false = false ∧ f + 1 < hv ∧
          ((List.range 6).all fun i =>
            if f < (i : Int) then getP (ptsOf b p) i == 0 else true) = true then
        some (hi, hv)
      else none
  | .pt f, .pt t =>
    if f - t = dice.1 ∧ usedDice.getD 0 false = false then some (0, dice.1)
    else if f - t = dice.2 ∧ usedDice.getD 1 false = false then some (1, dice.2)
    else none
  | .bar, .off => none

/--
First atomic segment of the make-move handler (everything before the
awaited ledger insert): turn check, dice-present check, die matching,
isValidMove, then the board mutation and marking the matched die used.
A rejection carries the emitted error message and leaves no mutation.
-/
def phase1 (s : Room) (actor : Player) (src : Origin) (dst : Dest) :
    Except String Room :=
  if s.currentPlayer ≠ actor then .error "Not your turn"
  else
    match s.dice with
    | none => .error "Must roll dice first"
    | some dice =>
      match dieMatch s.board actor dice s.diceUsed src dst with
      | none => .error "Invalid move - dice value does not match"
      | some (k, v) =>
        if isValidMove s.board src dst actor (some v) = false then
          .error "Invalid move"
        else
          .ok { s with board := makeMove s.board src dst actor v
                       diceUsed := s.diceUsed.set k true }

/--
canPlayerMove as the handler actually reaches it after the awaited
insert, where room.dice may have become null through interleaving: a
null dice value makes the scan throw a TypeError on the first die access
(caught by the handler, modelled as none) unless the scan never touches
the dice: both flags read as used during a bar scan, or no checker of
the player anywhere with an empty bar.
-/
def canPlayerMoveOpt (b : Board) (p : Player) (diceOpt : Option (Int × Int))
    (usedDice : List Bool) : Option Bool :=
  match diceOpt with
  | some dice => some (canPlayerMove b p dice usedDice)
  | none =>
    if 0 < barOf b p then
      if usedDice.getD 0 false = true ∧ usedDice.getD 1 false = true then
        some false
      else none
    else if (List.range 24).any fun n =>
        (0 < getP (ptsOf b p) (n : Int) ∧
          (usedDice.getD 0 false = false ∨ usedDice.getD 1 false = false) : Prop) then
      none
    else some false

/--
Second atomic segment of the make-move handler (after the awaited ledger
insert): recompute all-dice-used and canPlayerMove from the room as it
now is, flip current_player and clear the dice when all dice are used or
no move remains, then check the win condition.  A thrown TypeError
(null dice reached by the scan) is caught with no further mutation.
-/
def phase2 (r : Room) (actor : Player) : Room × Emit :=
  let allDiceUsed := r.diceUsed.all fun u => u
  match canPlayerMoveOpt r.board actor r.dice r.diceUsed with
  | none => (r, .errSender "Failed to make move")
  | some canMoveMore =>
    let r' :=
      if allDiceUsed || !canMoveMore then
        { r with currentPlayer := r.currentPlayer.other
                 dice := none
                 diceUsed := [] }
      else r
    match checkWinCondition r'.board with
    | some w => (r', .gameOver w)
    | none => (r', .broadcastState)

/-- The whole make-move handler run without interleaving: phase 1, and on
success phase 2. -/
def makeMoveHandler (s : Room) (actor : Player) (src : Origin) (dst : Dest) :
    Room × Emit :=
  match phase1 s actor src dst with
  | .error m => (s, .errSender m)
  | .ok r => phase2 r actor

/-- The backgammon branch of the roll-dice handler: rejected out of turn
or with dice already active, otherwise it stores the rolled pair with
both dice unused and broadcasts.  It never changes currentPlayer. -/
def rollHandler (s : Room) (actor : Player) (d : Int × Int) : Room × Emit :=
  if s.currentPlayer ≠ actor then (s, .errSender "Not your turn")
  else
    match s.dice with
    | some _ => (s, .errSender "Dice already rolled")
    | none => ({ s with dice := some d, diceUsed := [false, false] },
               .broadcastState)

/-- Rooms reachable from the freshly joined room by roll-dice actions
(with dice in 1..6) and make-move actions, each handler run whole. -/
inductive Reach : Room → Prop where
  | init : Reach initialRoom
  | roll (s : Room) (p : Player) (d1 d2 : Int) :
      Reach s → 1 ≤ d1 → d1 ≤ 6 → 1 ≤ d2 → d2 ≤ 6 →
      Reach (rollHandler s p (d1, d2)).1
  | move (s : Room) (p : Player) (src : Origin) (dst : Dest) :
      Reach s → Reach (makeMoveHandler s p src dst).1

/-- sum(points) + bar + borne_off for one player. -/
def playerSum (b : Board) (p : Player) : Nat :=
  (ptsOf b p).sum + barOf b p + offOf b p

/-- The value of die k of a rolled pair (k = 0 or 1). -/
def dieVal (dice : Int × Int) (k : Fin 2) : Int :=
  if k.val = 0 then dice.1 else dice.2

/-- Die k has not been consumed this turn. -/
def UnusedDie (usedDice : List Bool) (k : Fin 2) : Prop :=
  usedDice.getD k.val false = false

/-- Spec-side predicate: some unused die admits a legal bar entry
(isValidMove itself forces the entry index into 18-23). -/
def ExistsBarEntryMove (b : Board) (p : Player) (dice : Int × Int)
    (usedDice : List Bool) : Prop :=
  ∃ k : Fin 2, UnusedDie usedDice k ∧
    ∃ t : Int, isValidMove b .bar (.pt t) p (some (dieVal dice k)) = true

/-- Spec-side predicate: some unused die admits a legal ordinary
point-to-point move. -/
def ExistsPointMove (b : Board) (p : Player) (dice : Int × Int)
    (usedDice : List Bool) : Prop :=
  ∃ k : Fin 2, UnusedDie usedDice k ∧
    ∃ f t : Int, isValidMove b (.pt f) (.pt t) p (some (dieVal dice k)) = true

/-- Spec-side predicate: some unused die admits a legal bear-off. -/
def ExistsBearOffMove (b : Board) (p : Player) (dice : Int × Int)
    (usedDice : List Bool) : Prop :=
  ∃ k : Fin 2, UnusedDie usedDice k ∧
    ∃ f : Int, isValidMove b (.pt f) .off p (some (dieVal dice k)) = true

/-- Spec-side predicate: some die/move combination is legal, with bar
entries taking priority while the player has a checker on the bar
(no other move counts then, per the spec's must-enter-first rule). -/
def HasAnyLegalMove (b : Board) (p : Player) (dice : Int × Int)
    (usedDice : List Bool) : Prop :=
  if 0 < barOf b p then ExistsBarEntryMove b p dice usedDice
  else ExistsBarEntryMove b p dice usedDice ∨ ExistsPointMove b p dice usedDice ∨
    ExistsBearOffMove b p dice usedDice

/--
A reachable room in which the player to act has just rolled (6, 6) while
on the bar: die 6 gives entry index 17, outside the 18-23 entry band, so
no move is legal, yet the roll handler left the turn with player 1.
Built by the seven-action game: p1 rolls (6,3), plays 8 to 2 and 12 to 9;
p2 rolls (1,2), plays 3 to 2 (hitting the blot on 2) and 6 to 4;
p1 rolls (6,6).
-/
def roomBlocked : Room :=
  (rollHandler
    (makeMoveHandler
      (makeMoveHandler
        (rollHandler
          (makeMoveHandler
            (makeMoveHandler
              (rollHandler initialRoom .p1 (6, 3)).1
              .p1 (.pt 8) (.pt 2)).1
            .p1 (.pt 12) (.pt 9)).1
          .p2 (1, 2)).1
        .p2 (.pt 3) (.pt 2)).1
      .p2 (.pt 6) (.pt 4)).1
    .p1 (6, 6)).1

/-- A mid-bear-off room: player 1 has 13 checkers borne off and one
checker each on indices 0 and 1, dice (1, 2) both unused. -/
def c3Room : Room :=
  { board :=
    { points1 := [1,1,0,0,0,0, 0,0,0,0,0,0, 0,0,0,0,0,0, 0,0,0,0,0,0]
      points2 := [0,0,0,0,0,0, 0,0,0,0,0,0, 0,0,0,0,0,0, 15,0,0,0,0,0]
      bar1 := 0, bar2 := 0, off1 := 13, off2 := 0
      dice := none, current_player := 1, game_id := "" }
    currentPlayer := .p1
    dice := some (1, 2)
    diceUsed := [false, false] }

/-- c3Room after the first segment of the bear-off from index 0. -/
def c3A : Room :=
  { board :=
    { points1 := [0,1,0,0,0,0, 0,0,0,0,0,0, 0,0,0,0,0,0, 0,0,0,0,0,0]
      points2 := [0,0,0,0,0,0, 0,0,0,0,0,0, 0,0,0,0,0,0, 15,0,0,0,0,0]
      bar1 := 0, bar2 := 0, off1 := 14, off2 := 0
      dice := none, current_player := 1, game_id := "" }
    currentPlayer := .p1
    dice := some (1, 2)
    diceUsed := [true, false] }

/-- c3A after the first segment of the bear-off from index 1. -/
def c3B : Room :=
  { board :=
    { points1 := [0,0,0,0,0,0, 0,0,0,0,0,0, 0,0,0,0,0,0, 0,0,0,0,0,0]
      points2 := [0,0,0,0,0,0, 0,0,0,0,0,0, 0,0,0,0,0,0, 15,0,0,0,0,0]
      bar1 := 0, bar2 := 0, off1 := 15, off2 := 0
      dice := none, current_player := 1, game_id := "" }
    currentPlayer := .p1
    dice := some (1, 2)
    diceUsed := [true, true] }

/-- The freshly joined room after player 1 rolls (6, 3). -/
def rolledRoom : Room :=
  { board := initializeBoard, currentPlayer := .p1, dice := some (6, 3),
    diceUsed := [false, false] }

/-- A board with all of player 1's checkers in the home quadrant:
3 on index 0, 2 on index 1, 10 on index 2. -/
def homeBoardExample : Board :=
  { points1 := [3,2,10,0,0,0, 0,0,0,0,0,0, 0,0,0,0,0,0, 0,0,0,0,0,0]
    points2 := [0,0,0,0,0,0, 0,0,0,0,0,0, 0,0,0,0,0,0, 15,0,0,0,0,0]
    bar1 := 0, bar2 := 0, off1 := 0, off2 := 0
    dice := none, current_player := 1, game_id := "" }

/-- A board with player 1 on the bar and every usable entry point open. -/
def barBoardExample : Board :=
  { points1 := [0,0,0,0,0,5, 0,0,3,0,0,0, 5,0,0,0,0,0, 0,0,0,0,0,1]
    points2 := [0,0,0,3,0,0, 5,0,0,0,0,0, 0,0,0,0,0,2, 5,0,0,0,0,0]
    bar1 := 1, bar2 := 0, off1 := 0, off2 := 0
    dice := none, current_player := 1, game_id := "" }

/-! ### Basic facts about the board accessors -/

theorem Player.other_ne (p : Player) : p.other ≠ p := by
  cases p <;> simp [Player.other]

theorem ptsOf_setBar (b : Board) (q : Player) (n : Nat) (p : Player) :
    ptsOf (setBar b q n) p = ptsOf b p := by
  cases q <;> cases p <;> rfl

theorem ptsOf_setOff (b : Board) (q : Player) (n : Nat) (p : Player) :
    ptsOf (setOff b q n) p = ptsOf b p := by
  cases q <;> cases p <;> rfl

theorem ptsOf_setPts_self (b : Board) (p : Player) (l : List Nat) :
    ptsOf (setPts b p l) p = l := by
  cases p <;> rfl

theorem ptsOf_setPts_other (b : Board) (q : Player) (l : List Nat) (p : Player)
    (h : q ≠ p) : ptsOf (setPts b q l) p = ptsOf b p := by
  cases q <;> cases p <;> first | rfl | exact absurd rfl h

theorem barOf_setPts (b : Board) (q : Player) (l : List Nat) (p : Player) :
    barOf (setPts b q l) p = barOf b p := by
  cases q <;> cases p <;> rfl

theorem barOf_setOff (b : Board) (q : Player) (n : Nat) (p : Player) :
    barOf (setOff b q n) p = barOf b p := by
  cases q <;> cases p <;> rfl

theorem barOf_setBar_self (b : Board) (p : Player) (n : Nat) :
    barOf (setBar b p n) p = n := by
  cases p <;> rfl

theorem barOf_setBar_other (b : Board) (q : Player) (n : Nat) (p : Player)
    (h : q ≠ p) : barOf (setBar b q n) p = barOf b p := by
  cases q <;> cases p <;> first | rfl | exact absurd rfl h

theorem offOf_setPts (b : Board) (q : Player) (l : List Nat) (p : Player) :
    offOf (setPts b q l) p = offOf b p := by
  cases q <;> cases p <;> rfl

theorem offOf_setBar (b : Board) (q : Player) (n : Nat) (p : Player) :
    offOf (setBar b q n) p = offOf b p := by
  cases q <;> cases p <;> rfl

theorem offOf_setOff_self (b : Board) (p : Player) (n : Nat) :
    offOf (setOff b p n) p = n := by
  cases p <;> rfl

theorem offOf_setOff_other (b : Board) (q : Player) (n : Nat) (p : Player)
    (h : q ≠ p) : offOf (setOff b q n) p = offOf b p := by
  cases q <;> cases p <;> first | rfl | exact absurd rfl h

theorem length_setP (l : List Nat) (i : Int) (x : Nat) :
    (setP l i x).length = l.length := by
  unfold setP; split <;> simp

theorem getP_nonneg (l : List Nat) (i : Int) (h : 0 ≤ i) :
    getP l i = l.getD i.toNat 0 := by
  unfold getP; rw [if_neg (by omega)]

theorem setP_nonneg (l : List Nat) (i : Int) (x : Nat) (h : 0 ≤ i) :
    setP l i x = l.set i.toNat x := by
  unfold setP; rw [if_neg (by omega)]

theorem getP_setP_ne (l : List Nat) (i j : Int) (x : Nat) (h : i ≠ j) :
    getP (setP l i x) j = getP l j := by
  unfold getP setP
  split
  case isTrue => rfl
  case isFalse hi =>
    split
    case isTrue => rfl
    case isFalse hj =>
      have hij : i.toNat ≠ j.toNat := by omega
      simp [List.getD_eq_getElem?_getD, List.getElem?_set, hij]

theorem sum_set_getD (l : List Nat) (n : Nat) (x : Nat) (h : n < l.length) :
    (l.set n x).sum + l.getD n 0 = l.sum + x := by
  induction l generalizing n with
  | nil => simp at h
  | cons a tl ih =>
    cases n with
    | zero => simp [List.set]; omega
    | succ m =>
      simp only [List.set, List.sum_cons, List.getD_cons_succ]
      have := ih m (by simpa using h)
      omega

theorem sum_setP (l : List Nat) (i : Int) (x : Nat) (h0 : 0 ≤ i)
    (h : i.toNat < l.length) :
    (setP l i x).sum + getP l i = l.sum + x := by
  rw [setP_nonneg l i x h0, getP_nonneg l i h0]
  exact sum_set_getD l i.toNat x h

/-! ### Characterizations of the rule-engine predicates -/

theorem isInHomeBoard_iff (i : Int) (p : Player) :
    isInHomeBoard i p = true ↔ 0 ≤ i ∧ i ≤ 5 := by
  simp [isInHomeBoard]

theorem allInHomeBoard_iff (b : Board) (p : Player) :
    allInHomeBoard b p = true ↔
      (∀ i : Nat, i < 24 → 5 < (i : Int) → getP (ptsOf b p) i = 0) ∧
      barOf b p = 0 := by
  unfold allInHomeBoard
  rw [Bool.and_eq_true, List.all_eq_true, beq_iff_eq]
  constructor
  · rintro ⟨h1, h2⟩
    refine ⟨fun i hi h5 => ?_, h2⟩
    have := h1 i (List.mem_range.mpr hi)
    rw [if_pos h5] at this
    exact beq_iff_eq.mp this
  · rintro ⟨h1, h2⟩
    refine ⟨fun i hi => ?_, h2⟩
    by_cases h5 : 5 < (i : Int)
    · rw [if_pos h5]; exact beq_iff_eq.mpr (h1 i (List.mem_range.mp hi) h5)
    · rw [if_neg h5]

theorem noHigherLoop_iff (b : Board) (p : Player) (f : Int) :
    ((List.range 6).all fun i =>
      if f < (i : Int) then getP (ptsOf b p) i == 0 else true) = true ↔
      ∀ i : Nat, i < 6 → f < (i : Int) → getP (ptsOf b p) i = 0 := by
  rw [List.all_eq_true]
  constructor
  · intro h i hi hf
    have := h i (List.mem_range.mpr hi)
    rw [if_pos hf] at this
    exact beq_iff_eq.mp this
  · intro h i hi
    by_cases hf : f < (i : Int)
    · rw [if_pos hf]; exact beq_iff_eq.mpr (h i (List.mem_range.mp hi) hf)
    · rw [if_neg hf]

theorem isValidMove_bar_none (b : Board) (t : Int) (p : Player) :
    isValidMove b .bar (.pt t) p none = true ↔
      18 ≤ t ∧ t ≤ 23 ∧ getP (ptsOf b p.other) t ≤ 1 ∧ 1 ≤ barOf b p := by
  unfold isValidMove
  split_ifs with h1 h2 h3 <;> simp <;> omega

theorem isValidMove_bar_some (b : Board) (t : Int) (p : Player) (d : Int) :
    isValidMove b .bar (.pt t) p (some d) = true ↔
      18 ≤ t ∧ t ≤ 23 ∧ getP (ptsOf b p.other) t ≤ 1 ∧ 1 ≤ barOf b p ∧
      t = 24 - d - 1 := by
  simp only [isValidMove]
  split_ifs with h1 h2 h3 h4 <;> simp <;> omega

theorem isValidMove_pt_some (b : Board) (f t : Int) (p : Player) (d : Int) :
    isValidMove b (.pt f) (.pt t) p (some d) = true ↔
      0 ≤ f ∧ f ≤ 23 ∧ 0 ≤ t ∧ t ≤ 23 ∧ 1 ≤ getP (ptsOf b p) f ∧ t < f ∧
      getP (ptsOf b p.other) t ≤ 1 ∧ f - t = d := by
  simp only [isValidMove]
  split_ifs with h1 h2 h3 h4 h5 <;> simp <;> omega

theorem isValidMove_off_some (b : Board) (f : Int) (p : Player) (d : Int) :
    isValidMove b (.pt f) .off p (some d) = true ↔
      allInHomeBoard b p = true ∧ 0 ≤ f ∧ f ≤ 5 ∧ 1 ≤ getP (ptsOf b p) f ∧
      (f + 1 = d ∨ (f + 1 < d ∧
        ∀ i : Nat, i < 6 → f < (i : Int) → getP (ptsOf b p) i = 0)) := by
  cases hA : allInHomeBoard b p with
  | false =>
    simp [isValidMove, hA]
  | true =>
    cases hH : isInHomeBoard f p with
    | false =>
      simp only [isValidMove, hA, hH, Bool.not_true, Bool.not_false, if_true,
        if_false, Bool.false_eq_true, false_iff]
      rintro ⟨-, hf0, hf5, -⟩
      have : isInHomeBoard f p = true := (isInHomeBoard_iff f p).mpr ⟨hf0, hf5⟩
      rw [hH] at this
      exact Bool.false_ne_true this
    | true =>
      have hf : 0 ≤ f ∧ f ≤ 5 := (isInHomeBoard_iff f p).mp hH
      simp only [isValidMove, hA, hH, Bool.not_true, Bool.not_false, if_true,
        if_false, Bool.false_eq_true]
      split_ifs with h3 h4 h5
      · simp only [Bool.false_eq_true, false_iff]
        rintro ⟨-, -, -, hg, -⟩
        omega
      · exact iff_of_true rfl ⟨trivial, hf.1, hf.2, by omega, Or.inl h4⟩
      · rw [noHigherLoop_iff]
        constructor
        · intro h
          exact ⟨trivial, hf.1, hf.2, by omega, Or.inr ⟨h5, h⟩⟩
        · rintro ⟨-, -, -, -, h | ⟨-, h⟩⟩
          · omega
          · exact h
      · simp only [Bool.false_eq_true, false_iff]
        rintro ⟨-, -, -, -, h | ⟨h, -⟩⟩ <;> omega

/-! ### The fifteen-checker invariant -/

theorem ptsOf_length (b : Board) (h : b.WF) (p : Player) :
    (ptsOf b p).length = 24 := by
  cases p
  · exact h.1
  · exact h.2

theorem eq_other_of_ne {p q : Player} (h : q ≠ p) : q = p.other := by
  cases p <;> cases q <;> simp_all [Player.other]

/-- makeMove leaves each player's checker total unchanged whenever the
move it is given is valid. -/
theorem playerSum_makeMove (b : Board) (src : Origin) (dst : Dest)
    (p : Player) (d : Int) (hWF : b.WF)
    (hv : isValidMove b src dst p (some d) = true) (q : Player) :
    playerSum (makeMove b src dst p d) q = playerSum b q := by
  obtain ⟨h1, h2⟩ := hWF
  cases src with
  | bar =>
    cases dst with
    | off => simp [isValidMove] at hv
    | pt t =>
      rw [isValidMove_bar_some] at hv
      obtain ⟨h18, h23, hopp, hbar, -⟩ := hv
      have e1 := sum_setP b.points1 t (getP b.points1 t + 1) (by omega) (by omega)
      have e2 := sum_setP b.points2 t (getP b.points2 t + 1) (by omega) (by omega)
      have e3 := sum_setP b.points1 t 0 (by omega) (by omega)
      have e4 := sum_setP b.points2 t 0 (by omega) (by omega)
      cases p <;> cases q <;>
        simp only [makeMove, Player.other, setBar, setPts, setOff, ptsOf,
          barOf, offOf, playerSum] at hopp hbar ⊢ <;>
        split_ifs <;> (try dsimp only) <;> omega
  | pt f =>
    cases dst with
    | off =>
      rw [isValidMove_off_some] at hv
      obtain ⟨-, hf0, hf5, hg, -⟩ := hv
      have e1 := sum_setP b.points1 f (getP b.points1 f - 1) (by omega) (by omega)
      have e2 := sum_setP b.points2 f (getP b.points2 f - 1) (by omega) (by omega)
      cases p <;> cases q <;>
        simp only [makeMove, Player.other, setBar, setPts, setOff, ptsOf,
          barOf, offOf, playerSum] at hg ⊢ <;>
        (try dsimp only) <;> omega
    | pt t =>
      rw [isValidMove_pt_some] at hv
      obtain ⟨hf0, hf23, ht0, ht23, hg, hlt, hopp, -⟩ := hv
      have e1 := sum_setP b.points1 f (getP b.points1 f - 1) (by omega) (by omega)
      have e2 := sum_setP b.points2 f (getP b.points2 f - 1) (by omega) (by omega)
      have e3 := sum_setP (setP b.points1 f (getP b.points1 f - 1)) t
        (getP (setP b.points1 f (getP b.points1 f - 1)) t + 1)
        (by omega) (by rw [length_setP]; omega)
      have e4 := sum_setP (setP b.points2 f (getP b.points2 f - 1)) t
        (getP (setP b.points2 f (getP b.points2 f - 1)) t + 1)
        (by omega) (by rw [length_setP]; omega)
      have e5 := sum_setP b.points1 t 0 (by omega) (by omega)
      have e6 := sum_setP b.points2 t 0 (by omega) (by omega)
      cases p <;> cases q <;>
        simp only [makeMove, Player.other, setBar, setPts, setOff, ptsOf,
          barOf, offOf, playerSum] at hg hopp ⊢ <;>
        split_ifs <;> (try dsimp only) <;> omega

/-- makeMove preserves well-formedness of the board. -/
theorem makeMove_WF (b : Board) (src : Origin) (dst : Dest) (p : Player)
    (d : Int) (h : b.WF) : (makeMove b src dst p d).WF := by
  obtain ⟨h1, h2⟩ := h
  cases src <;> cases dst <;> cases p <;>
    simp only [makeMove, Player.other, setPts, setBar, setOff, ptsOf,
      Board.WF] <;>
    (try split_ifs) <;> (try dsimp only) <;>
    simp_all [length_setP]

/-! ### Structure of the room handlers -/

theorem phase1_eq_ok {s : Room} {actor : Player} {src : Origin} {dst : Dest}
    {r : Room} (h : phase1 s actor src dst = .ok r) :
    s.currentPlayer = actor ∧
    ∃ dice k v, s.dice = some dice ∧
      dieMatch s.board actor dice s.diceUsed src dst = some (k, v) ∧
      isValidMove s.board src dst actor (some v) = true ∧
      r = { s with board := makeMove s.board src dst actor v
                   diceUsed := s.diceUsed.set k true } := by
  unfold phase1 at h
  split at h
  · exact absurd h (by simp)
  · rename_i h1
    split at h
    · exact absurd h (by simp)
    · rename_i dice hd
      split at h
      · exact absurd h (by simp)
      · rename_i kv k v hm
        split at h
        · exact absurd h (by simp)
        · rename_i hv
          refine ⟨not_not.mp h1, dice, k, v, hd, hm, ?_, (Except.ok.inj h).symm⟩
          cases hvb : isValidMove s.board src dst actor (some v)
          · exact absurd hvb hv
          · rfl

theorem phase1_eq_error {s : Room} {actor : Player} {src : Origin}
    {dst : Dest} {m : String} (h : phase1 s actor src dst = .error m) :
    (makeMoveHandler s actor src dst) = (s, .errSender m) := by
  simp [makeMoveHandler, h]

theorem phase2_fst (r : Room) (a : Player) (dice : Int × Int)
    (hd : r.dice = some dice) :
    (phase2 r a).1 =
      if (r.diceUsed.all fun u => u) ||
          !(canPlayerMove r.board a dice r.diceUsed) then
        { r with currentPlayer := r.currentPlayer.other, dice := none,
                 diceUsed := [] }
      else r := by
  unfold phase2 canPlayerMoveOpt
  rw [hd]
  dsimp only
  split_ifs with h <;> cases checkWinCondition _ <;> rfl

theorem phase2_fst_board (r : Room) (a : Player) :
    (phase2 r a).1.board = r.board := by
  unfold phase2
  cases canPlayerMoveOpt r.board a r.dice r.diceUsed with
  | none => rfl
  | some c =>
    dsimp only
    split_ifs <;> cases checkWinCondition _ <;> rfl

theorem rollHandler_fst_currentPlayer (s : Room) (a : Player)
    (d : Int × Int) : (rollHandler s a d).1.currentPlayer = s.currentPlayer := by
  unfold rollHandler
  split_ifs
  · rfl
  · cases s.dice <;> rfl

theorem rollHandler_fst_board (s : Room) (a : Player) (d : Int × Int) :
    (rollHandler s a d).1.board = s.board := by
  unfold rollHandler
  split_ifs
  · rfl
  · cases s.dice <;> rfl

/-- Every reachable room has a well-formed board carrying fifteen
checkers per player. -/
theorem reach_inv (r : Room) (h : Reach r) :
    r.board.WF ∧ playerSum r.board .p1 = 15 ∧ playerSum r.board .p2 = 15 := by
  induction h with
  | init => exact ⟨by decide, by decide, by decide⟩
  | roll s p d1 d2 hs hl1 hu1 hl2 hu2 ih =>
    rw [rollHandler_fst_board]
    exact ih
  | move s p src dst hs ih =>
    obtain ⟨hWF, hp1, hp2⟩ := ih
    cases hp : phase1 s p src dst with
    | error m =>
      have := phase1_eq_error hp
      simp only [makeMoveHandler, hp]
      exact ⟨hWF, hp1, hp2⟩
    | ok r1 =>
      obtain ⟨-, dice, k, v, -, -, hv, hr1⟩ := phase1_eq_ok hp
      have hb : (makeMoveHandler s p src dst).1.board =
          makeMove s.board src dst p v := by
        simp only [makeMoveHandler, hp, phase2_fst_board, hr1]
      rw [hb]
      exact ⟨makeMove_WF _ _ _ _ _ hWF,
        by rw [playerSum_makeMove _ _ _ _ _ hWF hv]; exact hp1,
        by rw [playerSum_makeMove _ _ _ _ _ hWF hv]; exact hp2⟩

/-! ### Claim theorems -/

/--
C1: for every well-formed board and every move accepted by isValidMove,
makeMove preserves each player's total of point checkers plus bar plus
borne-off (15 stays 15); consequently every room reachable from the
initial room by legal actions carries exactly fifteen checkers per
player.
-/
theorem fifteen_checker_invariant :
    (∀ (b : Board) (src : Origin) (dst : Dest) (p : Player) (d : Int),
      b.WF → isValidMove b src dst p (some d) = true →
      playerSum b .p1 = 15 → playerSum b .p2 = 15 →
      playerSum (makeMove b src dst p d) .p1 = 15 ∧
      playerSum (makeMove b src dst p d) .p2 = 15) ∧
    (∀ r : Room, Reach r →
      playerSum r.board .p1 = 15 ∧ playerSum r.board .p2 = 15) :=
  ⟨fun b src dst p d hWF hv h1 h2 =>
    ⟨by rw [playerSum_makeMove b src dst p d hWF hv]; exact h1,
     by rw [playerSum_makeMove b src dst p d hWF hv]; exact h2⟩,
   fun r h => (reach_inv r h).2⟩

/-- Witness for C1 at the opening move 8 to 2 with die 6. -/
theorem fifteen_checker_invariant_witness :
    playerSum (makeMove initializeBoard (.pt 8) (.pt 2) .p1 6) .p1 = 15 ∧
    playerSum (makeMove initializeBoard (.pt 8) (.pt 2) .p1 6) .p2 = 15 :=
  fifteen_checker_invariant.1 initializeBoard (.pt 8) (.pt 2) .p1 6
    (by decide) (by decide) (by decide) (by decide)

/--
C4: a bar entry with no die value is legal iff the player has a checker
on the bar, the destination index lies in 18-23 and carries at most one
opposing checker; with a die value d it additionally requires the
destination to equal (24 - d) - 1 exactly.
-/
theorem bar_entry_legal_iff (b : Board) (t : Int) (p : Player) :
    (isValidMove b .bar (.pt t) p none = true ↔
      1 ≤ barOf b p ∧ 18 ≤ t ∧ t ≤ 23 ∧ getP (ptsOf b p.other) t ≤ 1) ∧
    ∀ d : Int, (isValidMove b .bar (.pt t) p (some d) = true ↔
      1 ≤ barOf b p ∧ 18 ≤ t ∧ t ≤ 23 ∧ getP (ptsOf b p.other) t ≤ 1 ∧
      t = 24 - d - 1) := by
  constructor
  · rw [isValidMove_bar_none]; tauto
  · intro d; rw [isValidMove_bar_some]; tauto

/--
C5: with all checkers home, a home point holding a checker may bear off
with die d iff its point number f+1 equals d, or f+1 < d and no checker
of the player sits on a higher home index; with allInHomeBoard false a
bear-off is never legal.
-/
theorem bear_off_legal_iff (b : Board) (f : Int) (p : Player) (d : Int) :
    (allInHomeBoard b p = true → 0 ≤ f → f ≤ 5 → 1 ≤ getP (ptsOf b p) f →
      (isValidMove b (.pt f) .off p (some d) = true ↔
        f + 1 = d ∨ (f + 1 < d ∧
          ∀ i : Nat, i < 6 → f < (i : Int) → getP (ptsOf b p) i = 0))) ∧
    (allInHomeBoard b p = false →
      isValidMove b (.pt f) .off p (some d) = false) := by
  constructor
  · intro hA h0 h5 hg
    rw [isValidMove_off_some]
    constructor
    · rintro ⟨-, -, -, -, h⟩; exact h
    · intro h; exact ⟨hA, h0, h5, hg, h⟩
  · intro hA
    cases hv : isValidMove b (.pt f) .off p (some d)
    · rfl
    · obtain ⟨hA2, -⟩ := (isValidMove_off_some b f p d).mp hv
      rw [hA] at hA2
      exact absurd hA2 (by simp)

/-- Witness for C5: bearing off from index 1 with die 2 on a board with
all of player 1's checkers home. -/
theorem bear_off_legal_iff_witness :
    isValidMove homeBoardExample (.pt 1) .off .p1 (some 2) = true :=
  ((bear_off_legal_iff homeBoardExample 1 .p1 2).1
    (by decide) (by decide) (by decide) (by decide)).mpr (Or.inl (by decide))

/--
C7 counterexample: after the single round with rolls (5, 3) the
resulting state does not have round_winner 1 - the code resets
round_winner to null together with the rolls when the round advances.
-/
theorem dice_duel_round_counterexample :
    ¬ ((processDiceRoll (processDiceRoll (initializeDiceGame "g") .p1 5)
        .p2 3).round_winner = some 1) := by decide

/--
C7 (amended): after exactly one round with rolls (5, 3), player 1's
score is 1, the round has advanced to 2, both rolls are reset to null,
and round_winner has also been reset to null (it held 1 only transiently
inside processDiceRoll); player 2 starts round 2 and there is no game
winner.
-/
theorem dice_duel_one_round :
    processDiceRoll (processDiceRoll (initializeDiceGame "g") .p1 5) .p2 3 =
      { game_id := "g", player1_score := 1, player2_score := 0,
        current_round := 2, player1_roll := none, player2_roll := none,
        current_player := .p2, round_winner := none,
        game_winner := none } := by decide

/--
C8 counterexample: the initial layout is not mirror-symmetric across the
24 points: player 2 holds 0 checkers at index 0 while player 1 holds 2
at index 23 - 0.
-/
theorem initial_board_mirror_counterexample :
    ¬ (getP initializeBoard.points2 0 =
        getP initializeBoard.points1 (23 - 0)) := by decide

/--
C8 (amended): the initial board is the fixed layout with checker counts
2, 5, 3, 5 per player (15 total each), empty bars, nothing borne off and
no dice; player 1 occupies indices 23, 12, 8, 5 and player 2 occupies
indices 17, 6, 3, 18 - the two placements are not mirror images of each
other.
-/
theorem initial_board_layout :
    getP initializeBoard.points1 23 = 2 ∧ getP initializeBoard.points1 12 = 5 ∧
    getP initializeBoard.points1 8 = 3 ∧ getP initializeBoard.points1 5 = 5 ∧
    getP initializeBoard.points2 17 = 2 ∧ getP initializeBoard.points2 6 = 5 ∧
    getP initializeBoard.points2 3 = 3 ∧ getP initializeBoard.points2 18 = 5 ∧
    initializeBoard.points1.sum = 15 ∧ initializeBoard.points2.sum = 15 ∧
    (∀ i : Nat, i < 24 → i ∉ ([23, 12, 8, 5] : List Nat) →
      getP initializeBoard.points1 i = 0) ∧
    (∀ i : Nat, i < 24 → i ∉ ([17, 6, 3, 18] : List Nat) →
      getP initializeBoard.points2 i = 0) ∧
    initializeBoard.bar1 = 0 ∧ initializeBoard.bar2 = 0 ∧
    initializeBoard.off1 = 0 ∧ initializeBoard.off2 = 0 ∧
    initializeBoard.dice = none := by decide

/--
C10: while the other player's roll for the round is still null,
processDiceRoll only records the acting player's roll and hands
current_player to the other player; scores, round number, round winner
and game winner are untouched (the TS function copies its input, so the
input state itself is never mutated - automatic in this pure embedding).
-/
theorem processDiceRoll_frame :
    (∀ (s : DiceGameState) (r : Int), s.player2_roll = none →
      processDiceRoll s .p1 r =
        { s with player1_roll := some r, current_player := .p2 }) ∧
    (∀ (s : DiceGameState) (r : Int), s.player1_roll = none →
      processDiceRoll s .p2 r =
        { s with player2_roll := some r, current_player := .p1 }) := by
  constructor
  · intro s r h
    simp [processDiceRoll, h, Player.other]
  · intro s r h
    simp [processDiceRoll, h, Player.other]

/-- Witness for C10 on the fresh dice-duel state. -/
theorem processDiceRoll_frame_witness :
    processDiceRoll (initializeDiceGame "w") .p1 4 =
      { initializeDiceGame "w" with
        player1_roll := some 4
        current_player := .p2 } :=
  processDiceRoll_frame.1 (initializeDiceGame "w") 4 rfl

/--
C2 (amended): after a successful move action the turn flips - with the
dice cleared, handing the roll to the other player - exactly when both
dice are marked used or canPlayerMove is false on the post-move board
with the remaining unused dice; a rejected move changes nothing and the
roll action never flips the turn (even when the rolled dice admit no
legal move, see the counterexample).
-/
theorem turn_flip_exactly_when :
    (∀ (s : Room) (actor : Player) (src : Origin) (dst : Dest)
        (dice : Int × Int) (r1 : Room),
      s.dice = some dice → phase1 s actor src dst = .ok r1 →
      (((makeMoveHandler s actor src dst).1.currentPlayer = actor.other) ↔
        ((r1.diceUsed.all fun u => u) = true ∨
          canPlayerMove r1.board actor dice r1.diceUsed = false)) ∧
      (((r1.diceUsed.all fun u => u) = true ∨
          canPlayerMove r1.board actor dice r1.diceUsed = false) →
        (makeMoveHandler s actor src dst).1 =
          { r1 with currentPlayer := actor.other
                    dice := none
                    diceUsed := [] }) ∧
      (¬ ((r1.diceUsed.all fun u => u) = true ∨
          canPlayerMove r1.board actor dice r1.diceUsed = false) →
        (makeMoveHandler s actor src dst).1 = r1)) ∧
    (∀ (s : Room) (actor : Player) (src : Origin) (dst : Dest) (m : String),
      phase1 s actor src dst = .error m →
      (makeMoveHandler s actor src dst).1 = s) ∧
    (∀ (s : Room) (actor : Player) (d : Int × Int),
      (rollHandler s actor d).1.currentPlayer = s.currentPlayer) := by
  refine ⟨?_, ?_, rollHandler_fst_currentPlayer⟩
  · intro s actor src dst dice r1 hdice hok
    obtain ⟨hturn, dice', k, v, hdice', hm, hv, hr1⟩ := phase1_eq_ok hok
    have hdd : dice' = dice := by
      rw [hdice] at hdice'
      exact (Option.some.inj hdice').symm
    rw [hdd] at hm
    have hr1dice : r1.dice = some dice := by rw [hr1]; exact hdice
    have hr1cp : r1.currentPlayer = actor := by rw [hr1]; exact hturn
    have hmain : (makeMoveHandler s actor src dst).1 = (phase2 r1 actor).1 := by
      simp [makeMoveHandler, hok]
    rw [hmain, phase2_fst r1 actor dice hr1dice]
    by_cases hc : (r1.diceUsed.all fun u => u) = true ∨
        canPlayerMove r1.board actor dice r1.diceUsed = false
    · have hb : ((r1.diceUsed.all fun u => u) ||
          !canPlayerMove r1.board actor dice r1.diceUsed) = true := by
        rcases hc with h | h <;> simp [h]
      rw [if_pos hb]
      refine ⟨iff_of_true (by rw [hr1cp]) hc, fun _ => by rw [hr1cp], fun hn => absurd hc hn⟩
    · have hb : ¬ (((r1.diceUsed.all fun u => u) ||
          !canPlayerMove r1.board actor dice r1.diceUsed) = true) := by
        simp only [Bool.or_eq_true, Bool.not_eq_true']
        exact hc
      rw [if_neg hb]
      refine ⟨iff_of_false ?_ hc, fun h => absurd h hc, fun _ => rfl⟩
      rw [hr1cp]
      exact Player.other_ne actor ∘ Eq.symm
  · intro s actor src dst m herr
    rw [phase1_eq_error herr]

/-- Witness for C2: the opening move 8 to 2 consumes die 0 of (6, 3) and
does not flip the turn because a move with die 1 remains. -/
theorem turn_flip_exactly_when_witness :
    (makeMoveHandler rolledRoom .p1 (.pt 8) (.pt 2)).1 =
      { rolledRoom with
          board := makeMove rolledRoom.board (.pt 8) (.pt 2) .p1 6
          diceUsed := rolledRoom.diceUsed.set 0 true } :=
  (turn_flip_exactly_when.1 rolledRoom .p1 (.pt 8) (.pt 2) (6, 3)
    { rolledRoom with
        board := makeMove rolledRoom.board (.pt 8) (.pt 2) .p1 6
        diceUsed := rolledRoom.diceUsed.set 0 true }
    (by decide) (by rfl)).2.2 (by decide)

/--
C2 counterexample: a reachable room in which the turn stays with player
1 although the freshly rolled (6, 6) admits no legal move (player 1 is
on the bar and die 6 maps to entry index 17, outside 18-23): the roll
handler performs no canPlayerMove check and never flips the turn.
-/
theorem turn_stuck_after_roll_counterexample :
    Reach roomBlocked ∧ roomBlocked.currentPlayer = .p1 ∧
    roomBlocked.dice = some (6, 6) ∧ roomBlocked.diceUsed = [false, false] ∧
    canPlayerMove roomBlocked.board .p1 (6, 6) roomBlocked.diceUsed = false := by
  refine ⟨?_, by decide, by decide, by decide, by decide⟩
  exact Reach.roll _ .p1 6 6
    (Reach.move _ .p2 (.pt 6) (.pt 4)
      (Reach.move _ .p2 (.pt 3) (.pt 2)
        (Reach.roll _ .p2 1 2
          (Reach.move _ .p1 (.pt 12) (.pt 9)
            (Reach.move _ .p1 (.pt 8) (.pt 2)
              (Reach.roll _ .p1 6 3 Reach.init
                (by decide) (by decide) (by decide) (by decide))))
          (by decide) (by decide) (by decide) (by decide))))
    (by decide) (by decide) (by decide) (by decide)

/--
C9: a move action whose submitted move matches no unused die, or is
rejected by isValidMove for the matched die value, makes the handler
emit an error to the acting connection only and leave the room -
board, dice, diceUsed and currentPlayer - exactly as it was.
-/
theorem rejected_move_no_mutation :
    ∀ (s : Room) (actor : Player) (src : Origin) (dst : Dest)
      (dice : Int × Int),
      s.currentPlayer = actor → s.dice = some dice →
      (dieMatch s.board actor dice s.diceUsed src dst = none ∨
        ∃ k v, dieMatch s.board actor dice s.diceUsed src dst = some (k, v) ∧
          isValidMove s.board src dst actor (some v) = false) →
      ∃ m, makeMoveHandler s actor src dst = (s, .errSender m) := by
  intro s actor src dst dice hturn hdice hrej
  have herr : ∃ m, phase1 s actor src dst = .error m := by
    cases hrej with
    | inl h =>
      refine ⟨"Invalid move - dice value does not match", ?_⟩
      simp [phase1, hturn, hdice, h]
    | inr h =>
      obtain ⟨k, v, hm, hv⟩ := h
      refine ⟨"Invalid move", ?_⟩
      simp [phase1, hturn, hdice, hm, hv]
  obtain ⟨m, hm⟩ := herr
  exact ⟨m, phase1_eq_error hm⟩

/-- Witness for C9: the move 23 to 22 matches neither die of (6, 3) and
is rejected without mutation. -/
theorem rejected_move_no_mutation_witness :
    ∃ m, makeMoveHandler rolledRoom .p1 (.pt 23) (.pt 22) =
      (rolledRoom, .errSender m) :=
  rejected_move_no_mutation rolledRoom .p1 (.pt 23) (.pt 22) (6, 3)
    (by decide) (by decide) (Or.inl (by decide))

/--
C3: the room handlers do not serialize per room.  Interleaving the two
atomic segments of two concurrent bear-off moves (segment boundaries at
the awaited ledger insert) as A1; B1; A2; B2 on c3Room double-flips
current_player back to player 1, while either serial order of the same
two moves ends with current_player = player 2: the interleaved outcome
matches no serial execution.
-/
theorem room_actions_not_serialized :
    phase1 c3Room .p1 (.pt 0) .off = .ok c3A ∧
    phase1 c3A .p1 (.pt 1) .off = .ok c3B ∧
    (phase2 (phase2 c3B .p1).1 .p1).1.currentPlayer = .p1 ∧
    (makeMoveHandler (makeMoveHandler c3Room .p1 (.pt 0) .off).1
      .p1 (.pt 1) .off).1.currentPlayer = .p2 ∧
    (makeMoveHandler (makeMoveHandler c3Room .p1 (.pt 1) .off).1
      .p1 (.pt 0) .off).1.currentPlayer = .p2 := by
  exact ⟨rfl, rfl, by decide, by decide, by decide⟩

/-! ### canPlayerMove scan completeness -/

theorem tryDieMove_eq_true {b : Board} {p : Player} {i die : Int} {u : Bool}
    (h : tryDieMove b p i die u = true) :
    u = false ∧
    (isValidMove b (.pt i) (.pt (i - die)) p (some die) = true ∨
     isValidMove b (.pt i) .off p (some die) = true) := by
  cases u with
  | true => simp [tryDieMove] at h
  | false =>
    refine ⟨rfl, ?_⟩
    unfold tryDieMove at h
    simp only [Bool.false_eq_true, if_false] at h
    rw [Bool.or_eq_true] at h
    rcases h with hA | hB
    · by_cases hc : 0 ≤ i - die ∧ i - die < 24
      · rw [if_pos hc] at hA; exact Or.inl hA
      · rw [if_neg hc] at hA; exact absurd hA (by simp)
    · by_cases hc : (isInHomeBoard i p && allInHomeBoard b p) = true
      · rw [if_pos hc] at hB; exact Or.inr hB
      · rw [if_neg hc] at hB; exact absurd hB (by simp)

theorem tryDieMove_pt_intro {b : Board} {p : Player} {f die : Int}
    (hv : isValidMove b (.pt f) (.pt (f - die)) p (some die) = true) :
    tryDieMove b p f die false = true := by
  obtain ⟨-, -, ht0, ht23, -, -, -, -⟩ := (isValidMove_pt_some b f (f - die) p die).mp hv
  unfold tryDieMove
  simp only [Bool.false_eq_true, if_false]
  rw [Bool.or_eq_true]
  left
  rw [if_pos ⟨ht0, by omega⟩]
  exact hv

theorem tryDieMove_off_intro {b : Board} {p : Player} {f die : Int}
    (hv : isValidMove b (.pt f) .off p (some die) = true) :
    tryDieMove b p f die false = true := by
  obtain ⟨hA, h0, h5, -, -⟩ := (isValidMove_off_some b f p die).mp hv
  have hcond : (isInHomeBoard f p && allInHomeBoard b p) = true := by
    rw [Bool.and_eq_true]
    exact ⟨(isInHomeBoard_iff f p).mpr ⟨h0, h5⟩, hA⟩
  unfold tryDieMove
  simp only [Bool.false_eq_true, if_false]
  rw [Bool.or_eq_true]
  right
  rw [if_pos hcond]
  exact hv

/-- canPlayerMove agrees with the spec-side existence of a legal
die/move combination. -/
theorem canPlayerMove_eq_true_iff (b : Board) (p : Player)
    (dice : Int × Int) (usedDice : List Bool) :
    canPlayerMove b p dice usedDice = true ↔
      HasAnyLegalMove b p dice usedDice := by
  by_cases hbar : 0 < barOf b p
  · simp only [HasAnyLegalMove, if_pos hbar]
    unfold canPlayerMove
    rw [if_pos hbar, List.any_eq_true]
    constructor
    · rintro ⟨j, hj, hcond⟩
      rw [List.mem_range] at hj
      rw [Bool.or_eq_true, Bool.and_eq_true, Bool.and_eq_true] at hcond
      rcases hcond with ⟨hu, hv⟩ | ⟨hu, hv⟩
      · refine ⟨0, ?_, ⟨18 + (j : Int), by simpa [dieVal] using hv⟩⟩
        simpa [UnusedDie] using hu
      · refine ⟨1, ?_, ⟨18 + (j : Int), by simpa [dieVal] using hv⟩⟩
        simpa [UnusedDie] using hu
    · rintro ⟨k, hu, t, hv⟩
      obtain ⟨h18, h23, -, -, -⟩ := (isValidMove_bar_some b t p _).mp hv
      refine ⟨(t - 18).toNat, List.mem_range.mpr (by omega), ?_⟩
      have ht : (18 : Int) + (((t - 18).toNat : Nat) : Int) = t := by omega
      rw [Bool.or_eq_true, Bool.and_eq_true, Bool.and_eq_true]
      have hk2 := k.isLt
      by_cases hk : k.val = 0
      · left
        have hdv : dieVal dice k = dice.1 := by unfold dieVal; rw [if_pos hk]
        rw [hdv] at hv
        refine ⟨?_, ?_⟩
        · have hg : usedDice.getD 0 false = false := by
            have := hu; unfold UnusedDie at this; rwa [hk] at this
          simpa using hg
        · rw [ht]
          exact hv
      · right
        have hk1 : k.val = 1 := by omega
        have hdv : dieVal dice k = dice.2 := by unfold dieVal; rw [if_neg hk]
        rw [hdv] at hv
        refine ⟨?_, ?_⟩
        · have hg : usedDice.getD 1 false = false := by
            have := hu; unfold UnusedDie at this; rwa [hk1] at this
          simpa using hg
        · rw [ht]
          exact hv
  · simp only [HasAnyLegalMove, if_neg hbar]
    unfold canPlayerMove
    rw [if_neg hbar, List.any_eq_true]
    constructor
    · rintro ⟨n, hn, hcond⟩
      rw [List.mem_range] at hn
      by_cases hg : 0 < getP (ptsOf b p) ((n : Nat) : Int)
      · rw [if_pos hg] at hcond
        rw [Bool.or_eq_true] at hcond
        rcases hcond with h | h
        · obtain ⟨huse, hd⟩ := tryDieMove_eq_true h
          rcases hd with hpt | hoff
          · exact Or.inr (Or.inl ⟨0, huse, (n : Int), (n : Int) - dice.1,
              by simpa [dieVal] using hpt⟩)
          · exact Or.inr (Or.inr ⟨0, huse, (n : Int),
              by simpa [dieVal] using hoff⟩)
        · obtain ⟨huse, hd⟩ := tryDieMove_eq_true h
          rcases hd with hpt | hoff
          · exact Or.inr (Or.inl ⟨1, huse, (n : Int), (n : Int) - dice.2,
              by simpa [dieVal] using hpt⟩)
          · exact Or.inr (Or.inr ⟨1, huse, (n : Int),
              by simpa [dieVal] using hoff⟩)
      · rw [if_neg hg] at hcond
        exact absurd hcond (by simp)
    · rintro (hbarm | hptm | hoffm)
      · obtain ⟨k, -, t, hv⟩ := hbarm
        obtain ⟨-, -, -, hb1, -⟩ := (isValidMove_bar_some b t p _).mp hv
        omega
      · obtain ⟨k, hu, f, t, hv⟩ := hptm
        obtain ⟨hf0, hf23, ht0, ht23, hg, hlt, -, hd⟩ :=
          (isValidMove_pt_some b f t p _).mp hv
        refine ⟨f.toNat, List.mem_range.mpr (by omega), ?_⟩
        have hfe : ((f.toNat : Nat) : Int) = f := by omega
        rw [hfe, if_pos (by omega), Bool.or_eq_true]
        have hk2 := k.isLt
        by_cases hk : k.val = 0
        · left
          have hu0 : usedDice.getD 0 false = false := by
            have := hu; unfold UnusedDie at this; rwa [hk] at this
          have hdv : dieVal dice k = dice.1 := by unfold dieVal; rw [if_pos hk]
          rw [hdv] at hv hd
          have ht' : t = f - dice.1 := by omega
          rw [ht'] at hv
          rw [hu0]
          exact tryDieMove_pt_intro hv
        · right
          have hk1 : k.val = 1 := by omega
          have hu1 : usedDice.getD 1 false = false := by
            have := hu; unfold UnusedDie at this; rwa [hk1] at this
          have hdv : dieVal dice k = dice.2 := by unfold dieVal; rw [if_neg hk]
          rw [hdv] at hv hd
          have ht' : t = f - dice.2 := by omega
          rw [ht'] at hv
          rw [hu1]
          exact tryDieMove_pt_intro hv
      · obtain ⟨k, hu, f, hv⟩ := hoffm
        obtain ⟨-, hf0, hf5, hg, -⟩ := (isValidMove_off_some b f p _).mp hv
        refine ⟨f.toNat, List.mem_range.mpr (by omega), ?_⟩
        have hfe : ((f.toNat : Nat) : Int) = f := by omega
        rw [hfe, if_pos (by omega), Bool.or_eq_true]
        have hk2 := k.isLt
        by_cases hk : k.val = 0
        · left
          have hu0 : usedDice.getD 0 false = false := by
            have := hu; unfold UnusedDie at this; rwa [hk] at this
          have hv1 : isValidMove b (.pt f) .off p (some dice.1) = true := by
            simpa [dieVal, hk] using hv
          rw [hu0]
          exact tryDieMove_off_intro hv1
        · right
          have hk1 : k.val = 1 := by omega
          have hu1 : usedDice.getD 1 false = false := by
            have := hu; unfold UnusedDie at this; rwa [hk1] at this
          have hv2 : isValidMove b (.pt f) .off p (some dice.2) = true := by
            simpa [dieVal, hk1] using hv
          rw [hu1]
          exact tryDieMove_off_intro hv2

/--
C6: canPlayerMove returns false exactly when no unused die yields a
legal bar entry, ordinary move or bear-off per isValidMove - where bar
entries take priority while a checker sits on the bar; in particular,
with a checker on the bar it returns true exactly when some unused die
opens an entry point (isValidMove confines entries to indices 18-23),
regardless of any other legal-looking move on the board.
-/
theorem canPlayerMove_false_iff :
    ∀ (b : Board) (p : Player) (dice : Int × Int) (usedDice : List Bool),
      (canPlayerMove b p dice usedDice = false ↔
        ¬ HasAnyLegalMove b p dice usedDice) ∧
      (0 < barOf b p →
        (canPlayerMove b p dice usedDice = true ↔
          ExistsBarEntryMove b p dice usedDice)) := by
  intro b p dice usedDice
  have hm := canPlayerMove_eq_true_iff b p dice usedDice
  constructor
  · constructor
    · intro h hH
      have := hm.mpr hH
      rw [h] at this
      exact absurd this (by simp)
    · intro hn
      cases hcan : canPlayerMove b p dice usedDice
      · rfl
      · exact absurd (hm.mp hcan) hn
  · intro hbar
    rw [hm]
    simp only [HasAnyLegalMove, if_pos hbar]

/-- Witness for C6: with player 1 on the bar and dice (3, 4) the entry
on index 20 with die 3 makes canPlayerMove true. -/
theorem canPlayerMove_false_iff_witness :
    canPlayerMove barBoardExample .p1 (3, 4) [false, false] = true ↔
      ExistsBarEntryMove barBoardExample .p1 (3, 4) [false, false] :=
  (canPlayerMove_false_iff barBoardExample .p1 (3, 4) [false, false]).2
    (by decide)

